import Mathlib

/-!
Verification of the MoveFlow Aptos MCP server's transaction custody and
signing-handoff core, shallowly embedded from the TypeScript sources:

* `src/services/ClientProvidedSigningService.ts` — the pending-transaction
  store, `signAndSubmitTransaction`, `submitSignedTransaction`,
  `getPendingTransaction`, id generation and the periodic cleanup sweep;
* `src/config.ts` — `getTransactionExecutorConfig` (signing-mode resolution
  from environment variables);
* `src/utils.ts` — `canExecuteTransaction`;
* `src/services/TransactionProxyService.ts` — `submitTransaction` (the
  client-signing deferral used by the tool adapter);
* `src/server-adapter` (`adaptToolForServer`) — the dispatch between the
  direct-signing path and the client-signing deferral path.

JavaScript `Map` state is embedded as an association list with unique keys
(`Map` guarantees key uniqueness); `Map.get` / `Map.set` / `Map.delete`
are embedded below.  The Aptos SDK is opaque and fallible: each of its
submit-then-wait call sequences is modelled as a function returning
`Except String TxResponse` supplied as a parameter, so "the SDK path is
never invoked" is expressed as the run's result being the same for every
SDK behaviour.  Timestamps are `Date.now()` values, modelled as `Nat`
with age arithmetic carried out in `Int` exactly as JS number arithmetic
behaves on them.
-/

namespace MoveFlow

/-- Equality of `Except` results is decidable when both components are;
needed so concrete runs of the fallible operations can be checked by
`decide`. -/
instance exceptDecEq {ε α : Type} [DecidableEq ε] [DecidableEq α] :
    DecidableEq (Except ε α) := fun x y =>
  match x, y with
  | Except.ok a, Except.ok b =>
    if h : a = b then Decidable.isTrue (by rw [h])
    else Decidable.isFalse (fun hh => h (Except.ok.inj hh))
  | Except.error a, Except.error b =>
    if h : a = b then Decidable.isTrue (by rw [h])
    else Decidable.isFalse (fun hh => h (Except.error.inj hh))
  | Except.ok _, Except.error _ => Decidable.isFalse (fun hh => Except.noConfusion hh)
  | Except.error _, Except.ok _ => Decidable.isFalse (fun hh => Except.noConfusion hh)

/-- JS truthiness of a `string | undefined` value: `undefined` and the empty
string are falsy, every other string is truthy. -/
def jsTruthy : Option String → Bool
  | none => false
  | some s => s ≠ ""

/-- JS `String.prototype.toLowerCase`, modelled character-wise (the
configuration strings it is applied to are ASCII). -/
def jsToLowerCase (s : String) : String :=
  String.mk (s.data.map Char.toLower)

/-- JS `a || d` for a `string | undefined` value `a`: the default `d` is used
when `a` is falsy. -/
def jsOr (a : Option String) (d : String) : String :=
  match a with
  | none => d
  | some s => if s = "" then d else s

/-- Opaque unsigned transaction payload built by the SDK
(`aptos.SimpleTransaction`); only its identity matters to the custody core. -/
structure SimpleTransaction where
  payloadId : Nat
deriving DecidableEq

/-- The three input shapes accepted by `normalizeTransaction`
(ClientProvidedSigningService.ts, lines 227-241): a value with an `encode`
method (already a `SimpleTransaction`), a MoveFlow-SDK wrapper exposing the
transaction under `.payload`, and anything else (returned as-is). -/
inductive RawTxnInput where
  | encodable (t : SimpleTransaction)
  | moveflowWrapped (t : SimpleTransaction)
  | other (t : SimpleTransaction)
deriving DecidableEq

/-- `normalizeTransaction` (ClientProvidedSigningService.ts, lines 227-241). -/
def normalizeTransaction : RawTxnInput → SimpleTransaction
  | RawTxnInput.encodable t => t
  | RawTxnInput.moveflowWrapped t => t
  | RawTxnInput.other t => t

/-- One value of the `pendingTransactions` map
(ClientProvidedSigningService.ts, lines 17-20). -/
structure PendingTxData where
  transaction : SimpleTransaction
  timestamp : Nat
deriving DecidableEq

/-- The `pendingTransactions` JS `Map`, embedded as an association list in
insertion order. -/
abbrev PendingMap := List (String × PendingTxData)

/-- JS `Map.get`: the value stored under `k`, if any. -/
def mapGet {α : Type} : List (String × α) → String → Option α
  | [], _ => none
  | p :: m, k => if p.1 = k then some p.2 else mapGet m k

/-- JS `Map.set`: replace the value under `k` in place if the key is present,
otherwise append the new binding (JS `Map` preserves insertion order). -/
def mapSet {α : Type} : List (String × α) → String → α → List (String × α)
  | [], k, v => [(k, v)]
  | p :: m, k, v => if p.1 = k then (k, v) :: m else p :: mapSet m k v

/-- JS `Map.delete`: remove the binding of `k` (a `Map` holds at most one). -/
def mapDelete {α : Type} : List (String × α) → String → List (String × α)
  | [], _ => []
  | p :: m, k => if p.1 = k then mapDelete m k else p :: mapDelete m k

/-- The externally supplied signed-data packet accepted by
`submitSignedTransaction` (ClientProvidedSigningService.ts, lines 106-111).
The optional `transaction_hash` field is never read by the code. -/
structure SignedData where
  signature : String
  public_key : String
  sender : String
deriving DecidableEq

/-- The packet-validation check of ClientProvidedSigningService.ts line 120:
`!signedData.signature || !signedData.public_key || !signedData.sender`
rejects; the fields are strings, so falsy means empty. -/
def validSignedData (sd : SignedData) : Bool :=
  jsTruthy (some sd.signature) && jsTruthy (some sd.public_key) && jsTruthy (some sd.sender)

/-- A transaction response as returned by the SDK's `waitForTransaction`;
all fields the code reads, each possibly absent. -/
structure TxResponse where
  hash : Option String
  version : Option String
  success : Option Bool
  vm_status : Option String
  gas_used : Option String
deriving DecidableEq

/-- `standardizeTransactionResponse` (ClientProvidedSigningService.ts,
lines 246-261): a response with a truthy `hash` is normalized, defaulting
`vm_status` to "executed" and `gas_used` to "0"; anything else is returned
unchanged.  (The `!response` guard cannot fire in this embedding because the
SDK model always returns a response value.) -/
def standardizeTransactionResponse (r : TxResponse) : TxResponse :=
  if jsTruthy r.hash then
    ⟨r.hash, r.version, r.success, some (jsOr r.vm_status "executed"), some (jsOr r.gas_used "0")⟩
  else r

/-- A server-held signer account (`aptos.Account`); opaque. -/
structure Account where
  address : String
deriving DecidableEq

/-- The opaque, fallible Aptos SDK, as seen by the custody core.  Each field
collapses one submit call followed by `waitForTransaction` into a single
fallible step: either the pair of calls throws (`Except.error` with the
underlying message) or it yields the confirmed response.  This preserves the
store-visible behaviour, because the source deletes the pending entry only
after both calls have succeeded. -/
structure SdkBehavior where
  /-- whether `aptosClient.transaction?.submit` exists (line 146). -/
  hasTransactionSubmit : Bool
  /-- `transaction.submit.simple` with the reconstructed authenticator,
  then `waitForTransaction` (lines 147-155). -/
  submitSimpleAndWait : SimpleTransaction → SignedData → Except String TxResponse
  /-- fallback: `signAndSubmitTransaction` with the mock temp account,
  then `waitForTransaction` (lines 181-189). -/
  signAndSubmitTempAndWait : SimpleTransaction → SignedData → Except String TxResponse
  /-- direct path: `signAndSubmitTransaction` with a real signer,
  then `waitForTransaction` (lines 80-88). -/
  directSignAndWait : SimpleTransaction → Account → Except String TxResponse

/-- The errors `submitSignedTransaction` can throw. -/
inductive SubmitError where
  /-- line 116: transaction id absent from the store
  ("未找到ID为 ... 的交易或交易已过期"). -/
  | notFoundError (transactionId : String)
  /-- line 121: packet missing signature, public key or sender
  ("签名数据无效：缺少签名、公钥或发送者地址"). -/
  | invalidSignatureError
  /-- an SDK submission/confirmation error, logged and rethrown (line 197). -/
  | sdkError (msg : String)
deriving DecidableEq

/-- `submitSignedTransaction` (ClientProvidedSigningService.ts, lines
104-199), as a state transformer on the pending map.  The source looks the
id up with `Map.get`, validates the packet, submits through whichever SDK
path exists, and deletes the entry only after a confirmed success (lines
158 and 192); on any throw the map is left as it was. -/
def submitSignedTransaction (sdk : SdkBehavior) (m : PendingMap)
    (transactionId : String) (signedData : SignedData) :
    Except SubmitError TxResponse × PendingMap :=
  match mapGet m transactionId with
  | none => (Except.error (SubmitError.notFoundError transactionId), m)
  | some pendingTx =>
    if validSignedData signedData = false then
      (Except.error SubmitError.invalidSignatureError, m)
    else
      -- the source binds `const transaction = pendingTx.transaction` here
      if sdk.hasTransactionSubmit then
        match sdk.submitSimpleAndWait pendingTx.transaction signedData with
        | Except.error e => (Except.error (SubmitError.sdkError e), m)
        | Except.ok result =>
          (Except.ok (standardizeTransactionResponse result), mapDelete m transactionId)
      else
        match sdk.signAndSubmitTempAndWait pendingTx.transaction signedData with
        | Except.error e => (Except.error (SubmitError.sdkError e), m)
        | Except.ok result =>
          (Except.ok (standardizeTransactionResponse result), mapDelete m transactionId)

/-- `generateTransactionId` (ClientProvidedSigningService.ts, lines 266-269):
`tx_` + `Date.now()` + `_` + a `Math.random()`-derived base-36 string.  The
time and the random part are explicit inputs of the embedding. -/
def generateTransactionId (now : Nat) (randomPart : String) : String :=
  "tx_" ++ toString now ++ "_" ++ randomPart

/-- The errors `signAndSubmitTransaction` can throw. -/
inductive SignError where
  /-- line 70: "服务器处于只读模式，无法执行交易". -/
  | readOnlyError
  /-- line 75: "执行交易需要提供签名账户". -/
  | signerRequiredError
  /-- an SDK submission/confirmation error, logged and rethrown (line 93). -/
  | sdkError (msg : String)
deriving DecidableEq

/-- The messages carried by the corresponding throws of the source. -/
def signErrMessage : SignError → String
  | SignError.readOnlyError => "服务器处于只读模式，无法执行交易"
  | SignError.signerRequiredError => "执行交易需要提供签名账户"
  | SignError.sdkError msg => msg

/-- The two success shapes `signAndSubmitTransaction` can return: the
deferral object `{transactionId, rawTxn, clientSigningRequired}` (lines
61-65) or a finalized standardized response (line 90). -/
inductive SignResult where
  | pending (transactionId : String) (rawTxn : SimpleTransaction)
      (clientSigningRequired : Bool)
  | completed (resp : TxResponse)
deriving DecidableEq

/-- `signAndSubmitTransaction` (ClientProvidedSigningService.ts, lines
44-95), as a state transformer on the pending map.  `readOnlyMode` is the
constructor argument of the service (line 30), `now` and `randomPart` feed
the id generator and the stored timestamp. -/
def signAndSubmitTransaction (readOnlyMode : Bool) (sdk : SdkBehavior)
    (m : PendingMap) (now : Nat) (randomPart : String)
    (transaction : RawTxnInput) (execute : Bool) (signer : Option Account) :
    Except SignError SignResult × PendingMap :=
  let txnToProcess := normalizeTransaction transaction
  if execute = false then
    let transactionId := generateTransactionId now randomPart
    (Except.ok (SignResult.pending transactionId txnToProcess true),
     mapSet m transactionId ⟨txnToProcess, now⟩)
  else if readOnlyMode then
    (Except.error SignError.readOnlyError, m)
  else
    match signer with
    | none => (Except.error SignError.signerRequiredError, m)
    | some s =>
      match sdk.directSignAndWait txnToProcess s with
      | Except.error e => (Except.error (SignError.sdkError e), m)
      | Except.ok result =>
        (Except.ok (SignResult.completed (standardizeTransactionResponse result)), m)

/-- The result of `getPendingTransaction` (ClientProvidedSigningService.ts,
lines 207-222). -/
structure PendingStatus where
  found : Bool
  transaction : Option SimpleTransaction
  age : Option Int
deriving DecidableEq

/-- `getPendingTransaction` (ClientProvidedSigningService.ts, lines
207-222): a read-only peek reporting presence and age. -/
def getPendingTransaction (m : PendingMap) (now : Nat) (transactionId : String) :
    PendingStatus :=
  match mapGet m transactionId with
  | none => ⟨false, none, none⟩
  | some pendingTx =>
    ⟨true, some pendingTx.transaction, some ((now : Int) - (pendingTx.timestamp : Int))⟩

/-- `MAX_TX_AGE` (ClientProvidedSigningService.ts, line 276): ten minutes
in milliseconds. -/
def MAX_TX_AGE : Nat := 600000

/-- `CLEANUP_INTERVAL` (ClientProvidedSigningService.ts, line 275). -/
def CLEANUP_INTERVAL : Nat := 60000

/-- The sweep's expiry test (line 283): `now - txData.timestamp > MAX_TX_AGE`
in JS number arithmetic, which is `Int` arithmetic on `Date.now()` values. -/
def isExpired (now : Nat) (d : PendingTxData) : Bool :=
  decide ((MAX_TX_AGE : Int) < (now : Int) - (d.timestamp : Int))

/-- One sweep of the cleanup task (ClientProvidedSigningService.ts, lines
278-292): iterate over the entries, deleting each expired one from the map
and counting the deletions.  Returns the updated map and the count. -/
def cleanupSweep (m : PendingMap) (now : Nat) : PendingMap × Nat :=
  m.foldl
    (fun acc p => if isExpired now p.2 then (mapDelete acc.1 p.1, acc.2 + 1) else acc)
    (m, 0)

/-- The resolved signing mode of `config.ts` (`'direct' | 'client'`). -/
inductive SigningMode where
  | direct
  | client
deriving DecidableEq

/-- The environment variables read by `getTransactionExecutorConfig`
(config.ts): each is `string | undefined`. -/
structure Env where
  READ_ONLY_MODE : Option String
  SIGNING_MODE : Option String
  APTOS_PRIVATE_KEY : Option String
deriving DecidableEq

/-- The `TransactionExecutorConfig` interface of config.ts. -/
structure TransactionExecutorConfig where
  readOnlyMode : Bool
  signingMode : SigningMode
  privateKey : Option String
deriving DecidableEq

/-- `getTransactionExecutorConfig` (config.ts, lines 98-140): read-only mode
iff `READ_ONLY_MODE === "true"`; signing mode is `direct` iff
`SIGNING_MODE?.toLowerCase() === 'direct'`; when direct is requested with no
truthy private key outside read-only mode, the function returns with signing
mode degraded to `client` (line 126-133); otherwise a read-only server also
reports `client`. -/
def getTransactionExecutorConfig (env : Env) : TransactionExecutorConfig :=
  let readOnlyMode : Bool := decide (env.READ_ONLY_MODE = some "true")
  let configuredSigningMode : Option String := env.SIGNING_MODE.map jsToLowerCase
  let signingMode : SigningMode :=
    if configuredSigningMode = some "direct" then SigningMode.direct else SigningMode.client
  let privateKey : Option String := env.APTOS_PRIVATE_KEY
  if signingMode = SigningMode.direct ∧ jsTruthy privateKey = false ∧ readOnlyMode = false then
    ⟨readOnlyMode, SigningMode.client, privateKey⟩
  else
    ⟨readOnlyMode, if readOnlyMode then SigningMode.client else signingMode, privateKey⟩

/-- The return shape of `canExecuteTransaction` (utils.ts). -/
structure ExecCheck where
  canExecute : Bool
  errorMessage : Option String
deriving DecidableEq

/-- `canExecuteTransaction` (utils.ts): reads the executor configuration and
refuses exactly when the caller requests execution on a read-only server. -/
def canExecuteTransaction (env : Env) (executeFlag : Bool) : ExecCheck :=
  let config := getTransactionExecutorConfig env
  if executeFlag && config.readOnlyMode then
    ⟨false, some "Cannot execute transactions. Server is in read-only mode."⟩
  else
    ⟨true, none⟩

/-- One value of the `TransactionProxyService.pendingTransactions` map.  The
source additionally stores the promise `resolver` continuation; it is a
function value that is only ever invoked, never inspected, so it is not part
of the state model. -/
structure ProxyEntry where
  transaction : SimpleTransaction
  timestamp : Nat
deriving DecidableEq

/-- The return shape of `TransactionProxyService.submitTransaction`
(TransactionProxyService.ts, lines 25-62); `payload` is the transaction's
`rawTransaction`, modelled by the opaque transaction itself. -/
structure ProxySubmitResult where
  transactionId : String
  payload : SimpleTransaction
  expiresAt : Nat
deriving DecidableEq

/-- `TransactionProxyService.submitTransaction` (TransactionProxyService.ts,
lines 25-62): generate an id with the same `tx_<now>_<random>` scheme,
record the entry with the current timestamp, and return the id, the payload
and a five-minute expiry deadline.  (The `setTimeout` expiry it schedules is
the proxy's own reaper and is outside this state transition.) -/
def proxySubmitTransaction (m : List (String × ProxyEntry)) (now : Nat)
    (randomPart : String) (transaction : SimpleTransaction) :
    ProxySubmitResult × List (String × ProxyEntry) :=
  let transactionId := generateTransactionId now randomPart
  let expiresAt := now + 5 * 60 * 1000
  (⟨transactionId, transaction, expiresAt⟩,
   mapSet m transactionId ⟨transaction, now⟩)

/-- The observable outcomes of the `adaptToolForServer` wrapper when the
wrapped handler has produced a transaction object. -/
inductive AdaptOutcome where
  /-- `canExecuteTransaction` refused (read-only execution request). -/
  | refused (msg : String)
  /-- direct mode with no signer account: "直接签名模式失败: ...". -/
  | directNoSigner
  /-- direct mode, SDK submission confirmed. -/
  | directSubmitted (resp : TxResponse)
  /-- direct mode, signing/submission threw: "使用服务器私钥签名交易失败: ...". -/
  | directFailed (msg : String)
  /-- client mode: deferred through the proxy store for client-side signing. -/
  | clientDeferred (r : ProxySubmitResult)
deriving DecidableEq

/-- The transaction-dispatch core of `adaptToolForServer` (server adapter,
lines 54-147), for a handler result that is a transaction object: first gate
on `canExecuteTransaction(execute)`, then route to the direct-signing path
when `signingMode === 'direct' && !readOnlyMode` and a signer resolves, and
otherwise defer through `transactionProxyService.submitTransaction`.
The direct path calls the signing service's `signAndSubmitTransaction` with
`execute = true`; its `pending` success shape is unreachable there and is
mapped to a failure for totality. -/
def adaptToolHandle (env : Env) (sdk : SdkBehavior) (signer : Option Account)
    (pm : PendingMap) (proxy : List (String × ProxyEntry)) (now : Nat)
    (randomPart : String) (executeFlag : Bool) (result : SimpleTransaction) :
    AdaptOutcome × PendingMap × List (String × ProxyEntry) :=
  let check := canExecuteTransaction env executeFlag
  if check.canExecute = false then
    (AdaptOutcome.refused (jsOr check.errorMessage "Cannot execute transaction in current mode."),
     pm, proxy)
  else
    let txConfig := getTransactionExecutorConfig env
    if txConfig.signingMode = SigningMode.direct ∧ txConfig.readOnlyMode = false then
      match signer with
      | none => (AdaptOutcome.directNoSigner, pm, proxy)
      | some s =>
        match signAndSubmitTransaction txConfig.readOnlyMode sdk pm now randomPart
            (RawTxnInput.encodable result) true (some s) with
        | (Except.ok (SignResult.completed resp), pm') =>
          (AdaptOutcome.directSubmitted resp, pm', proxy)
        | (Except.ok (SignResult.pending _ _ _), pm') =>
          (AdaptOutcome.directFailed "unexpected deferral", pm', proxy)
        | (Except.error e, pm') =>
          (AdaptOutcome.directFailed (signErrMessage e), pm', proxy)
    else
      let deferred := proxySubmitTransaction proxy now randomPart result
      (AdaptOutcome.clientDeferred deferred.1, pm, deferred.2)

/-- A sample SDK behaviour whose submissions all confirm. -/
def sdkOkResp : TxResponse :=
  ⟨some "0xabc", some "1", some true, some "executed", some "7"⟩

/-- A sample SDK behaviour whose submissions all confirm with `sdkOkResp`. -/
def sdkOk : SdkBehavior :=
  ⟨true, fun _ _ => Except.ok sdkOkResp, fun _ _ => Except.ok sdkOkResp,
   fun _ _ => Except.ok sdkOkResp⟩

/-- A sample SDK behaviour whose submissions are all rejected. -/
def sdkReject : SdkBehavior :=
  ⟨true, fun _ _ => Except.error "rejected", fun _ _ => Except.error "rejected",
   fun _ _ => Except.error "rejected"⟩

/-! ### Lemmas about the embedded `Map` operations -/

theorem mapGet_mapSet_self {α : Type} (m : List (String × α)) (k : String) (v : α) :
    mapGet (mapSet m k v) k = some v := by
  induction m with
  | nil => simp [mapSet, mapGet]
  | cons p m ih =>
    by_cases hpk : p.1 = k
    · simp [mapSet, mapGet, hpk]
    · simp [mapSet, mapGet, hpk, ih]

theorem mapGet_mapSet_ne {α : Type} (m : List (String × α)) (k id : String) (v : α)
    (h : id ≠ k) : mapGet (mapSet m k v) id = mapGet m id := by
  induction m with
  | nil => simp [mapSet, mapGet, Ne.symm h]
  | cons p m ih =>
    by_cases hpk : p.1 = k
    · have hkid : ¬ k = id := by rw [← hpk]; rw [hpk]; exact Ne.symm h
      have hpid : ¬ p.1 = id := by rw [hpk]; exact hkid
      simp [mapSet, mapGet, hpk, hpid, hkid]
    · by_cases hpid : p.1 = id
      · simp [mapSet, mapGet, hpk, hpid, h]
      · simp [mapSet, mapGet, hpk, hpid, ih]

theorem mapGet_mapDelete {α : Type} (m : List (String × α)) (k id : String) :
    mapGet (mapDelete m k) id = if id = k then none else mapGet m id := by
  induction m with
  | nil => simp [mapDelete, mapGet]
  | cons p m ih =>
    by_cases hpk : p.1 = k
    · simp only [mapDelete, hpk, if_pos]
      rw [ih]
      by_cases hid : id = k
      · simp [hid]
      · have hpid : ¬ p.1 = id := by rw [hpk]; exact fun hh => hid hh.symm
        simp [mapGet, hid, hpid]
    · by_cases hpid : p.1 = id
      · have hid : ¬ id = k := fun hh => hpk (hpid.trans hh)
        simp [mapDelete, mapGet, hpk, hpid, hid]
      · simp [mapDelete, mapGet, hpk, hpid, ih]

theorem mapGet_mem {α : Type} {m : List (String × α)} {id : String} {v : α}
    (h : mapGet m id = some v) : (id, v) ∈ m := by
  induction m with
  | nil => simp [mapGet] at h
  | cons p m ih =>
    by_cases hpk : p.1 = id
    · simp only [mapGet, hpk, if_pos] at h
      have hv : p.2 = v := Option.some.inj h
      have hpe : (id, v) = p := by
        cases p
        simp only [Prod.mk.injEq]
        simp only at hpk hv
        exact ⟨hpk.symm, hv.symm⟩
      rw [hpe]
      exact List.mem_cons_self _ _
    · simp only [mapGet, hpk, if_neg, if_false] at h
      exact List.mem_cons_of_mem _ (ih h)

theorem mapGet_eq_none_forall {α : Type} {m : List (String × α)} {id : String}
    (h : mapGet m id = none) : ∀ p ∈ m, p.1 ≠ id := by
  induction m with
  | nil => intro p hp; simp at hp
  | cons q m ih =>
    intro p hp
    by_cases hqk : q.1 = id
    · simp [mapGet, hqk] at h
    · simp only [mapGet, hqk, if_neg, if_false] at h
      rcases List.mem_cons.1 hp with hq | hm
      · rw [hq]; exact hqk
      · exact ih h p hm

theorem nodup_mapGet {α : Type} {m : List (String × α)} {k : String} {v : α}
    (hnd : (m.map Prod.fst).Nodup) (hmem : (k, v) ∈ m) : mapGet m k = some v := by
  induction m with
  | nil => simp at hmem
  | cons p m ih =>
    rcases List.mem_cons.1 hmem with hp | hm
    · rw [← hp]
      simp [mapGet]
    · have hk : k ∈ m.map Prod.fst := List.mem_map.2 ⟨(k, v), hm, rfl⟩
      have hpk : p.1 ≠ k := by
        intro heq
        exact (List.nodup_cons.1 (by simpa using hnd)).1 (heq ▸ hk)
      simp only [mapGet, hpk, if_neg, if_false]
      exact ih (List.nodup_cons.1 (by simpa using hnd)).2 hm

/-- The cleanup fold, over any iteration list `l` and starting state `acc`:
an id's binding survives iff no expired entry of `l` carries that id. -/
theorem sweep_foldl_get (now : Nat) (l : List (String × PendingTxData))
    (acc : PendingMap × Nat) (id : String) :
    mapGet (l.foldl (fun acc p =>
        if isExpired now p.2 then (mapDelete acc.1 p.1, acc.2 + 1) else acc) acc).1 id =
      (if l.any (fun p => decide (p.1 = id) && isExpired now p.2) then none
       else mapGet acc.1 id) := by
  induction l generalizing acc with
  | nil => simp
  | cons p l ih =>
    by_cases hexp : isExpired now p.2 = true
    · simp only [List.foldl_cons, hexp, if_pos, List.any_cons, Bool.and_true]
      rw [ih]
      by_cases hpid : p.1 = id
      · simp [hpid, mapGet_mapDelete]
      · have hb : (decide (p.1 = id) || l.any fun p => decide (p.1 = id) && isExpired now p.2)
            = (l.any fun p => decide (p.1 = id) && isExpired now p.2) := by
          simp [hpid]
        rw [hb, mapGet_mapDelete]
        have hidp : ¬ id = p.1 := fun hh => hpid hh.symm
        simp [hidp]
    · have hexp' : isExpired now p.2 = false := by
        cases hb : isExpired now p.2
        · rfl
        · exact absurd hb hexp
      simp only [List.foldl_cons, hexp', Bool.false_eq_true, if_false, List.any_cons,
        Bool.and_false, Bool.false_or]
      exact ih acc

/-- One sweep, on a store with unique keys (the JS `Map` invariant): the
surviving binding of an id is its old binding unless that binding was
expired. -/
theorem cleanupSweep_get (m : PendingMap) (now : Nat)
    (hnd : (m.map Prod.fst).Nodup) (id : String) :
    mapGet (cleanupSweep m now).1 id =
      (match mapGet m id with
       | none => none
       | some d => if isExpired now d then none else some d) := by
  unfold cleanupSweep
  rw [sweep_foldl_get]
  cases hm : mapGet m id with
  | none =>
    have hany : m.any (fun p => decide (p.1 = id) && isExpired now p.2) = false := by
      rw [List.any_eq_false]
      intro p hp
      simp [mapGet_eq_none_forall hm p hp]
    simp [hany, hm]
  | some d =>
    by_cases hexp : isExpired now d = true
    · have hany : m.any (fun p => decide (p.1 = id) && isExpired now p.2) = true :=
        List.any_eq_true.2 ⟨(id, d), mapGet_mem hm, by simp [hexp]⟩
      simp [hany, hexp]
    · have hany : m.any (fun p => decide (p.1 = id) && isExpired now p.2) = false := by
        rw [List.any_eq_false]
        intro p hp
        by_cases hpk : p.1 = id
        · have hp2 : mapGet m id = some p.2 := by
            apply nodup_mapGet hnd
            rw [← hpk]
            exact hp
          rw [hm] at hp2
          have hd : d = p.2 := Option.some.inj hp2
          rw [hpk, ← hd]
          simp [hexp]
        · simp [hpk]
      simp [hany, hm, hexp]

/-- A successful `submitSignedTransaction` leaves exactly the map with the
submitted id deleted (lines 158 and 192 of the source). -/
theorem submitSignedTransaction_ok_state {sdk : SdkBehavior} {m : PendingMap}
    {id : String} {sd : SignedData} {r : TxResponse} {m' : PendingMap}
    (h : submitSignedTransaction sdk m id sd = (Except.ok r, m')) :
    m' = mapDelete m id := by
  unfold submitSignedTransaction at h
  split at h
  · simp at h
  · split at h
    · simp at h
    · split at h
      · split at h
        · simp at h
        · simp only [Prod.mk.injEq] at h
          exact h.2.symm
      · split at h
        · simp at h
        · simp only [Prod.mk.injEq] at h
          exact h.2.symm

/-- A missing id fails the lookup of line 114 before anything else happens:
the not-found error is thrown and the map is untouched, whatever the SDK
and whatever the packet. -/
theorem submitSignedTransaction_notFound (sdk : SdkBehavior) (m : PendingMap)
    (id : String) (sd : SignedData) (h : mapGet m id = none) :
    submitSignedTransaction sdk m id sd =
      (Except.error (SubmitError.notFoundError id), m) := by
  unfold submitSignedTransaction
  rw [h]

/-- Setting a key that is not yet bound appends the new binding, leaving
every existing binding in place. -/
theorem mapSet_fresh_append {α : Type} (m : List (String × α)) (k : String) (v : α)
    (h : mapGet m k = none) : mapSet m k v = m ++ [(k, v)] := by
  induction m with
  | nil => simp [mapSet]
  | cons p m ih =>
    by_cases hpk : p.1 = k
    · simp [mapGet, hpk] at h
    · simp only [mapGet, hpk, if_neg, if_false] at h
      simp [mapSet, hpk, ih h]

/-! ### Claim theorems -/

/-- C1: after a first `submitSignedTransaction id packet` call that completes
successfully (returning `Except.ok`, having deleted the entry), any second
call with the same `id` fails with the not-found/expired error
(`TransactionExpiredOrUnknown`) and performs no second submission — the
result and the untouched store are the same for every SDK behaviour
`sdk'` and every packet `sd'`. -/
theorem submit_twice_second_notFound (sdk sdk' : SdkBehavior) (m : PendingMap)
    (id : String) (sd sd' : SignedData) (r : TxResponse) (m' : PendingMap)
    (h : submitSignedTransaction sdk m id sd = (Except.ok r, m')) :
    submitSignedTransaction sdk' m' id sd' =
      (Except.error (SubmitError.notFoundError id), m') := by
  have hdel : m' = mapDelete m id := submitSignedTransaction_ok_state h
  have hnone : mapGet m' id = none := by
    rw [hdel, mapGet_mapDelete]
    simp
  exact submitSignedTransaction_notFound sdk' m' id sd' hnone

/-- Witness for C1 at a concrete store, id, packet and SDK. -/
theorem submit_twice_second_notFound_witness :
    submitSignedTransaction sdkOk [("tx_1_a", ⟨⟨7⟩, 0⟩)] "tx_1_a" ⟨"s", "p", "a"⟩ =
      (Except.ok sdkOkResp, []) ∧
    submitSignedTransaction sdkReject [] "tx_1_a" ⟨"s", "p", "a"⟩ =
      (Except.error (SubmitError.notFoundError "tx_1_a"), []) :=
  ⟨by decide,
   submit_twice_second_notFound sdkOk sdkReject [("tx_1_a", ⟨⟨7⟩, 0⟩)] "tx_1_a"
     ⟨"s", "p", "a"⟩ ⟨"s", "p", "a"⟩ sdkOkResp [] (by decide)⟩

/-- C2 counterexample: with a pending entry and a rejecting SDK, the error is
surfaced but the entry is STILL in the store afterwards (the source deletes
only after a confirmed success), and a retry with the same id does not fail
with the not-found/expired error — contradicting the claim that the entry
has been consumed. -/
theorem sdk_reject_keeps_entry_cex :
    (submitSignedTransaction sdkReject [("id1", ⟨⟨7⟩, 0⟩)] "id1" ⟨"s", "p", "a"⟩).1 =
      Except.error (SubmitError.sdkError "rejected") ∧
    mapGet (submitSignedTransaction sdkReject [("id1", ⟨⟨7⟩, 0⟩)] "id1"
        ⟨"s", "p", "a"⟩).2 "id1" = some ⟨⟨7⟩, 0⟩ ∧
    (submitSignedTransaction sdkOk
        (submitSignedTransaction sdkReject [("id1", ⟨⟨7⟩, 0⟩)] "id1" ⟨"s", "p", "a"⟩).2
        "id1" ⟨"s", "p", "a"⟩).1 ≠
      Except.error (SubmitError.notFoundError "id1") := by
  decide

/-- C2 amended: when the SDK submission path rejects (throws), the error is
surfaced to the caller as an SDK error, but the pending entry REMAINS in the
store (the map is returned unchanged), so a retry with the same id
re-attempts submission rather than failing with the not-found/expired
error. -/
theorem sdk_reject_keeps_entry (sdk : SdkBehavior) (m : PendingMap) (id : String)
    (sd : SignedData) (d : PendingTxData) (msg : String)
    (hget : mapGet m id = some d) (hv : validSignedData sd = true)
    (hsdk : (if sdk.hasTransactionSubmit then sdk.submitSimpleAndWait d.transaction sd
             else sdk.signAndSubmitTempAndWait d.transaction sd) = Except.error msg) :
    submitSignedTransaction sdk m id sd =
      (Except.error (SubmitError.sdkError msg), m) := by
  unfold submitSignedTransaction
  rw [hget]
  by_cases hs : sdk.hasTransactionSubmit = true
  · rw [if_pos hs] at hsdk
    simp [hv, hs, hsdk]
  · rw [if_neg hs] at hsdk
    have hs' : sdk.hasTransactionSubmit = false := by
      cases hb : sdk.hasTransactionSubmit
      · rfl
      · exact absurd hb hs
    simp [hv, hs', hsdk]

/-- Witness for the amended C2 at a concrete store and rejecting SDK. -/
theorem sdk_reject_keeps_entry_witness :
    mapGet [("id1", (⟨⟨7⟩, 0⟩ : PendingTxData))] "id1" = some ⟨⟨7⟩, 0⟩ ∧
    validSignedData ⟨"s", "p", "a"⟩ = true ∧
    submitSignedTransaction sdkReject [("id1", ⟨⟨7⟩, 0⟩)] "id1" ⟨"s", "p", "a"⟩ =
      (Except.error (SubmitError.sdkError "rejected"), [("id1", ⟨⟨7⟩, 0⟩)]) :=
  ⟨by decide, by decide,
   sdk_reject_keeps_entry sdkReject [("id1", ⟨⟨7⟩, 0⟩)] "id1" ⟨"s", "p", "a"⟩
     ⟨⟨7⟩, 0⟩ "rejected" (by decide) (by decide) (by decide)⟩

/-- C6 counterexample: for a packet that is both invalid (empty signature)
and carries an unknown id, the source reports the not-found/expired error,
not the invalid-signature error — the store lookup of line 114 runs before
the packet validation of line 120. -/
theorem invalid_unknown_notfound_cex :
    (submitSignedTransaction sdkOk [] "nope" ⟨"", "pk", "addr"⟩).1 =
      Except.error (SubmitError.notFoundError "nope") ∧
    (submitSignedTransaction sdkOk [] "nope" ⟨"", "pk", "addr"⟩).1 ≠
      Except.error SubmitError.invalidSignatureError := by
  decide

/-- C6 amended: the store is consulted FIRST: a missing id produces the
not-found/expired error even when the packet is also invalid; for a known
id, a packet with an empty signature, public key or sender address is
rejected with the invalid-signature error before any submission (the store
is unchanged, for every SDK); the two error kinds remain distinguishable. -/
theorem packet_errors_order (m : PendingMap) (id : String) (sd : SignedData) :
    (∀ sdk : SdkBehavior, mapGet m id = none →
      submitSignedTransaction sdk m id sd =
        (Except.error (SubmitError.notFoundError id), m)) ∧
    (∀ (sdk : SdkBehavior) (d : PendingTxData), mapGet m id = some d →
      validSignedData sd = false →
      submitSignedTransaction sdk m id sd =
        (Except.error SubmitError.invalidSignatureError, m)) ∧
    (Except.error (SubmitError.notFoundError id) ≠
      (Except.error SubmitError.invalidSignatureError : Except SubmitError TxResponse)) := by
  refine ⟨fun sdk hnone => submitSignedTransaction_notFound sdk m id sd hnone,
    fun sdk d hget hv => ?_, by simp⟩
  unfold submitSignedTransaction
  rw [hget]
  simp [hv]

/-- Witness for the amended C6 at concrete stores and packets. -/
theorem packet_errors_order_witness :
    submitSignedTransaction sdkOk [] "x" ⟨"", "", ""⟩ =
      (Except.error (SubmitError.notFoundError "x"), []) ∧
    submitSignedTransaction sdkOk [("y", ⟨⟨1⟩, 0⟩)] "y" ⟨"", "p", "a"⟩ =
      (Except.error SubmitError.invalidSignatureError, [("y", ⟨⟨1⟩, 0⟩)]) :=
  ⟨(packet_errors_order [] "x" ⟨"", "", ""⟩).1 sdkOk (by decide),
   (packet_errors_order [("y", ⟨⟨1⟩, 0⟩)] "y" ⟨"", "p", "a"⟩).2.1 sdkOk ⟨⟨1⟩, 0⟩
     (by decide) (by decide)⟩

/-- C3: for every configuration resolving to read-only mode, an
`execute = true` request is rejected with the read-only violation: the tool
gate `canExecuteTransaction` refuses with the read-only message, the signing
service throws the read-only error before touching the store, and the tool
adapter refuses outright — and in each case the result is the same for
every SDK behaviour, so the SDK submission path is never invoked. -/
theorem readonly_execute_rejected (env : Env)
    (hro : (getTransactionExecutorConfig env).readOnlyMode = true) :
    canExecuteTransaction env true =
      ⟨false, some "Cannot execute transactions. Server is in read-only mode."⟩ ∧
    (∀ (sdk : SdkBehavior) (m : PendingMap) (now : Nat) (randomPart : String)
       (txn : RawTxnInput) (signer : Option Account),
      signAndSubmitTransaction (getTransactionExecutorConfig env).readOnlyMode sdk m now
        randomPart txn true signer = (Except.error SignError.readOnlyError, m)) ∧
    (∀ (sdk : SdkBehavior) (signer : Option Account) (pm : PendingMap)
       (proxy : List (String × ProxyEntry)) (now : Nat) (randomPart : String)
       (result : SimpleTransaction),
      adaptToolHandle env sdk signer pm proxy now randomPart true result =
        (AdaptOutcome.refused "Cannot execute transactions. Server is in read-only mode.",
         pm, proxy)) := by
  have hcheck : canExecuteTransaction env true =
      ⟨false, some "Cannot execute transactions. Server is in read-only mode."⟩ := by
    simp [canExecuteTransaction, hro]
  refine ⟨hcheck, fun sdk m now randomPart txn signer => ?_,
    fun sdk signer pm proxy now randomPart result => ?_⟩
  · simp [signAndSubmitTransaction, hro]
  · unfold adaptToolHandle
    rw [hcheck]
    simp [jsOr]

/-- Witness for C3 at the concrete read-only environment. -/
theorem readonly_execute_rejected_witness :
    (getTransactionExecutorConfig ⟨some "true", none, none⟩).readOnlyMode = true ∧
    canExecuteTransaction ⟨some "true", none, none⟩ true =
      ⟨false, some "Cannot execute transactions. Server is in read-only mode."⟩ ∧
    signAndSubmitTransaction
        (getTransactionExecutorConfig ⟨some "true", none, none⟩).readOnlyMode
        sdkOk [] 0 "r" (RawTxnInput.encodable ⟨1⟩) true none =
      (Except.error SignError.readOnlyError, []) :=
  ⟨by decide,
   (readonly_execute_rejected ⟨some "true", none, none⟩ (by decide)).1,
   (readonly_execute_rejected ⟨some "true", none, none⟩ (by decide)).2.1 sdkOk [] 0 "r"
     (RawTxnInput.encodable ⟨1⟩) none⟩

/-- C4: for every transaction, every read-only flag, every signer and every
SDK behaviour, `signAndSubmitTransaction` with `execute = false` stores the
normalized transaction under the generated id with the current timestamp,
performs no signing or submission (the whole run is independent of the SDK
behaviour: the result is the same, SDK-free, expression for all of them),
and returns the deferral object with that `transactionId` and
`clientSigningRequired = true`. -/
theorem prepare_defers_always (readOnlyMode : Bool) (sdk : SdkBehavior) (m : PendingMap)
    (now : Nat) (randomPart : String) (txn : RawTxnInput) (signer : Option Account) :
    signAndSubmitTransaction readOnlyMode sdk m now randomPart txn false signer =
      (Except.ok (SignResult.pending (generateTransactionId now randomPart)
          (normalizeTransaction txn) true),
       mapSet m (generateTransactionId now randomPart) ⟨normalizeTransaction txn, now⟩) ∧
    mapGet (signAndSubmitTransaction readOnlyMode sdk m now randomPart txn false signer).2
        (generateTransactionId now randomPart) =
      some ⟨normalizeTransaction txn, now⟩ := by
  constructor
  · simp [signAndSubmitTransaction]
  · simp [signAndSubmitTransaction, mapGet_mapSet_self]

/-- C10 (implicit): preparation is permitted in read-only mode — for every
configuration, `canExecuteTransaction` with `executeFlag = false` allows the
call, and the signing service on a read-only server (`readOnlyMode = true`)
with `execute = false` still inserts a pending entry and returns a
transaction id, because the read-only check sits after the non-execute
branch has returned. -/
theorem prepare_allowed_in_readonly (env : Env) (sdk : SdkBehavior) (m : PendingMap)
    (now : Nat) (randomPart : String) (txn : RawTxnInput) (signer : Option Account) :
    canExecuteTransaction env false = ⟨true, none⟩ ∧
    (signAndSubmitTransaction true sdk m now randomPart txn false signer).1 =
      Except.ok (SignResult.pending (generateTransactionId now randomPart)
        (normalizeTransaction txn) true) ∧
    mapGet (signAndSubmitTransaction true sdk m now randomPart txn false signer).2
        (generateTransactionId now randomPart) = some ⟨normalizeTransaction txn, now⟩ := by
  refine ⟨?_, ?_, ?_⟩
  · simp [canExecuteTransaction]
  · simp [signAndSubmitTransaction]
  · simp [signAndSubmitTransaction, mapGet_mapSet_self]

/-- C7: a configuration requesting direct signing with no resolvable private
key (the env var is absent or empty) outside read-only mode resolves to
client signing; resolution is a total function and returns normally. -/
theorem direct_without_key_degrades (env : Env)
    (hpref : env.SIGNING_MODE.map jsToLowerCase = some "direct")
    (hkey : jsTruthy env.APTOS_PRIVATE_KEY = false)
    (hro : env.READ_ONLY_MODE ≠ some "true") :
    getTransactionExecutorConfig env =
      ⟨false, SigningMode.client, env.APTOS_PRIVATE_KEY⟩ := by
  unfold getTransactionExecutorConfig
  simp [hpref, hkey, hro]

/-- Witness for C7: `SIGNING_MODE = "DIRECT"` (case-insensitive match), no
private key, not read-only. -/
theorem direct_without_key_degrades_witness :
    (⟨none, some "DIRECT", none⟩ : Env).SIGNING_MODE.map jsToLowerCase = some "direct" ∧
    getTransactionExecutorConfig ⟨none, some "DIRECT", none⟩ =
      ⟨false, SigningMode.client, none⟩ :=
  ⟨by decide,
   direct_without_key_degrades ⟨none, some "DIRECT", none⟩ (by decide) (by decide)
     (by decide)⟩

/-- C5 counterexample: at the signing service, under client-signing
disposition (not read-only, no signer available), `execute = true` does NOT
produce the `{transactionId, clientSigningRequired: true}` deferral shape:
it throws the signer-required error, while `execute = false` defers — the
two results differ. -/
theorem clientsign_execute_not_deferred_cex :
    (signAndSubmitTransaction false sdkOk [] 5 "abc" (RawTxnInput.encodable ⟨1⟩)
        true none).1 = Except.error SignError.signerRequiredError ∧
    (signAndSubmitTransaction false sdkOk [] 5 "abc" (RawTxnInput.encodable ⟨1⟩)
        false none).1 =
      Except.ok (SignResult.pending "tx_5_abc" ⟨1⟩ true) ∧
    (signAndSubmitTransaction false sdkOk [] 5 "abc" (RawTxnInput.encodable ⟨1⟩)
        true none).1 ≠
    (signAndSubmitTransaction false sdkOk [] 5 "abc" (RawTxnInput.encodable ⟨1⟩)
        false none).1 := by
  decide

/-- C5 amended: under client-signing disposition the signing service's
`execute = true` path with no signer errors (signer-required) rather than
deferring, for every SDK, with the store untouched; the deferral on
`execute = true` happens one layer up: the tool adapter, in client mode
outside read-only, routes EVERY transaction-producing call — whatever the
execute flag — to the proxy store, returning the
`{transactionId, payload, expiresAt}` deferral shape (not
`clientSigningRequired: true`) and never reaching the signing service. -/
theorem clientsign_execute_amended (env : Env)
    (hclient : (getTransactionExecutorConfig env).signingMode = SigningMode.client)
    (hro : (getTransactionExecutorConfig env).readOnlyMode = false) :
    (∀ (sdk : SdkBehavior) (m : PendingMap) (now : Nat) (randomPart : String)
       (txn : RawTxnInput),
      signAndSubmitTransaction false sdk m now randomPart txn true none =
        (Except.error SignError.signerRequiredError, m)) ∧
    (∀ (sdk : SdkBehavior) (signer : Option Account) (pm : PendingMap)
       (proxy : List (String × ProxyEntry)) (now : Nat) (randomPart : String)
       (executeFlag : Bool) (result : SimpleTransaction),
      adaptToolHandle env sdk signer pm proxy now randomPart executeFlag result =
        (AdaptOutcome.clientDeferred
           ⟨generateTransactionId now randomPart, result, now + 5 * 60 * 1000⟩,
         pm, mapSet proxy (generateTransactionId now randomPart) ⟨result, now⟩)) := by
  refine ⟨fun sdk m now randomPart txn => ?_,
    fun sdk signer pm proxy now randomPart executeFlag result => ?_⟩
  · simp [signAndSubmitTransaction]
  · have hcheck : canExecuteTransaction env executeFlag = ⟨true, none⟩ := by
      simp [canExecuteTransaction, hro]
    unfold adaptToolHandle
    rw [hcheck]
    simp [hclient, proxySubmitTransaction]

/-- Witness for the amended C5 at the default (client-signing) environment,
with an `execute = true` tool call. -/
theorem clientsign_execute_amended_witness :
    (getTransactionExecutorConfig ⟨none, none, none⟩).signingMode = SigningMode.client ∧
    signAndSubmitTransaction false sdkOk [] 5 "abc" (RawTxnInput.encodable ⟨1⟩)
        true none = (Except.error SignError.signerRequiredError, []) ∧
    adaptToolHandle ⟨none, none, none⟩ sdkOk none [] [] 5 "abc" true ⟨1⟩ =
      (AdaptOutcome.clientDeferred ⟨"tx_5_abc", ⟨1⟩, 5 + 5 * 60 * 1000⟩,
       [], [("tx_5_abc", ⟨⟨1⟩, 5⟩)]) :=
  ⟨by decide,
   (clientsign_execute_amended ⟨none, none, none⟩ (by decide) (by decide)).1 sdkOk [] 5
     "abc" (RawTxnInput.encodable ⟨1⟩),
   (clientsign_execute_amended ⟨none, none, none⟩ (by decide) (by decide)).2 sdkOk none
     [] [] 5 "abc" true ⟨1⟩⟩

/-- C8: one cleanup sweep over a store with unique keys (the JS `Map`
invariant) removes exactly the entries whose age `now - timestamp` exceeds
`MAX_TX_AGE` (ten minutes): an expired binding is gone afterwards —
`getPendingTransaction` reports `found = false` at any later time and
`submitSignedTransaction` fails with the not-found/expired error for every
SDK and packet — while every younger binding and every absent id are left
exactly as they were. -/
theorem cleanup_sweep_spec (m : PendingMap) (now now2 : Nat)
    (hnd : (m.map Prod.fst).Nodup) :
    (∀ id d, mapGet m id = some d → isExpired now d = true →
      mapGet (cleanupSweep m now).1 id = none ∧
      getPendingTransaction (cleanupSweep m now).1 now2 id = ⟨false, none, none⟩ ∧
      ∀ (sdk : SdkBehavior) (sd : SignedData),
        submitSignedTransaction sdk (cleanupSweep m now).1 id sd =
          (Except.error (SubmitError.notFoundError id), (cleanupSweep m now).1)) ∧
    (∀ id d, mapGet m id = some d → isExpired now d = false →
      mapGet (cleanupSweep m now).1 id = some d) ∧
    (∀ id, mapGet m id = none → mapGet (cleanupSweep m now).1 id = none) := by
  refine ⟨fun id d hget hexp => ?_, fun id d hget hexp => ?_, fun id hnone => ?_⟩
  · have hgone : mapGet (cleanupSweep m now).1 id = none := by
      rw [cleanupSweep_get m now hnd id, hget]
      simp [hexp]
    refine ⟨hgone, ?_, fun sdk sd => submitSignedTransaction_notFound sdk _ id sd hgone⟩
    unfold getPendingTransaction
    rw [hgone]
  · rw [cleanupSweep_get m now hnd id, hget]
    simp [hexp]
  · rw [cleanupSweep_get m now hnd id, hnone]

/-- Witness for C8: a two-entry store at `now = 1000001`; the entry created
at time 0 (age above ten minutes) is swept, the one created at 1000000
(age 1ms) survives. -/
theorem cleanup_sweep_spec_witness :
    (([("a", (⟨⟨1⟩, 0⟩ : PendingTxData)), ("b", ⟨⟨2⟩, 1000000⟩)].map
        Prod.fst).Nodup) ∧
    mapGet (cleanupSweep [("a", ⟨⟨1⟩, 0⟩), ("b", ⟨⟨2⟩, 1000000⟩)] 1000001).1 "a" =
      none ∧
    mapGet (cleanupSweep [("a", ⟨⟨1⟩, 0⟩), ("b", ⟨⟨2⟩, 1000000⟩)] 1000001).1 "b" =
      some ⟨⟨2⟩, 1000000⟩ :=
  ⟨by decide,
   ((cleanup_sweep_spec [("a", ⟨⟨1⟩, 0⟩), ("b", ⟨⟨2⟩, 1000000⟩)] 1000001 0
       (by decide)).1 "a" ⟨⟨1⟩, 0⟩ (by decide) (by decide)).1,
   (cleanup_sweep_spec [("a", ⟨⟨1⟩, 0⟩), ("b", ⟨⟨2⟩, 1000000⟩)] 1000001 0
       (by decide)).2.1 "b" ⟨⟨2⟩, 1000000⟩ (by decide) (by decide)⟩

/-- C9 counterexample: the id generator is time + random with no uniqueness
check against the store, so two puts in the same millisecond with the same
random suffix generate the SAME id, and the second `Map.set` OVERWRITES the
first pending entry: after the two puts the store holds a single entry and
the first transaction is gone. -/
theorem duplicate_id_overwrites_cex :
    (signAndSubmitTransaction false sdkOk [] 5 "abc" (RawTxnInput.encodable ⟨1⟩)
        false none).2 = [("tx_5_abc", ⟨⟨1⟩, 5⟩)] ∧
    (signAndSubmitTransaction false sdkOk
        (signAndSubmitTransaction false sdkOk [] 5 "abc" (RawTxnInput.encodable ⟨1⟩)
            false none).2
        5 "abc" (RawTxnInput.encodable ⟨2⟩) false none).2 =
      [("tx_5_abc", ⟨⟨2⟩, 5⟩)] := by
  decide

/-- C9 amended: a put never overwrites an existing pending entry PROVIDED
the generated `tx_<time>_<random>` id is not already bound in the store (the
generator itself performs no such check): the new binding is appended and
every existing binding survives unchanged; with a colliding (time, random)
pair the existing entry is overwritten instead. -/
theorem fresh_id_put_preserves (readOnlyMode : Bool) (sdk : SdkBehavior)
    (m : PendingMap) (now : Nat) (randomPart : String) (txn : RawTxnInput)
    (signer : Option Account)
    (hfresh : mapGet m (generateTransactionId now randomPart) = none) :
    signAndSubmitTransaction readOnlyMode sdk m now randomPart txn false signer =
      (Except.ok (SignResult.pending (generateTransactionId now randomPart)
          (normalizeTransaction txn) true),
       m ++ [(generateTransactionId now randomPart, ⟨normalizeTransaction txn, now⟩)]) := by
  simp [signAndSubmitTransaction, mapSet_fresh_append _ _ _ hfresh]

/-- Witness for the amended C9: a fresh id appended after an unrelated
pending entry, which survives. -/
theorem fresh_id_put_preserves_witness :
    mapGet [("x", (⟨⟨9⟩, 0⟩ : PendingTxData))] (generateTransactionId 5 "abc") = none ∧
    signAndSubmitTransaction false sdkOk [("x", ⟨⟨9⟩, 0⟩)] 5 "abc"
        (RawTxnInput.encodable ⟨1⟩) false none =
      (Except.ok (SignResult.pending "tx_5_abc" ⟨1⟩ true),
       [("x", ⟨⟨9⟩, 0⟩), ("tx_5_abc", ⟨⟨1⟩, 5⟩)]) :=
  ⟨by decide,
   fresh_id_put_preserves false sdkOk [("x", ⟨⟨9⟩, 0⟩)] 5 "abc"
     (RawTxnInput.encodable ⟨1⟩) none (by decide)⟩

end MoveFlow
